import Mathlib

/-!
Verification development for the s3-file-uploader repository.

The Go sources are shallowly embedded: external effects (filesystem stat,
tar/gpg subprocesses, S3 upload, file removal) are represented by an
environment record holding the outcome each external call would produce,
and every embedded function additionally returns the list of external
actions it performed, in order, so that ordering and short-circuiting
properties can be stated about the trace.
-/

namespace S3Uploader

/-- External actions performed while processing one file (the effectful
calls made by sendFileS3 and its callees, in `main.go` and
`internal/fs/fs.go`). -/
inductive Action where
  | statOrig
  | runTar
  | runGpg
  | fakeUpload
  | upload
  | removeOrig
  | removeGzip
  | removeEnc
  deriving DecidableEq, Repr

/-- The fields of `cfg.AppConfig` that the embedded code reads.
Field names keep the Go names. -/
structure AppConfig where
  Workers : Nat := 1
  WorkersCannelSize : Nat := 1024
  PathToWatch : String := ""
  ExitOnFilename : String := ""
  Gzip : Bool := true
  Encrypt : Bool := true
  DryRun : Bool := false
  deriving DecidableEq, Repr

/-- Counters and sums of `metrics.AppMetrics` that the embedded code
touches. -/
structure AppMetrics where
  channelFullEvents : Nat := 0
  fileSendCount : Nat := 0
  fileSendErrors : Nat := 0
  fileSendSuccess : Nat := 0
  fileOrigBytesSum : Int := 0
  fileSendBytesSum : Int := 0
  deriving DecidableEq, Repr

/-- Outcomes of the external calls made while processing one file:
`os.Stat` on the original, the tar subprocess, the gpg subprocess, the
`os.Stat` on the encrypted file that EncryptFile uses to work around
gpg exit codes, the upload (dry-run and real), and the `os.Remove`
calls of DeleteFile (the original is removed with one retry). -/
structure FileEnv where
  statRes : Option Int := some 1
  tarOk : Bool := true
  gpgOk : Bool := true
  encFileSize : Option Int := none
  fakeUploadRes : Option Int := some 1
  uploadRes : Option Int := some 1
  removeOrigOk1 : Bool := true
  removeOrigOk2 : Bool := true
  removeGzipOk : Bool := true
  removeEncOk : Bool := true
  deriving DecidableEq, Repr

/-- `fs.GzipFile` (internal/fs): returns nil at once when gzip is
disabled; otherwise runs the tar subprocess and fails iff it fails.
Result: (success, external actions performed). -/
def GzipFile (config : AppConfig) (env : FileEnv) : Bool × List Action :=
  if !config.Gzip then (true, [])
  else (env.tarOk, [Action.runTar])

/-- `fs.EncryptFile` (internal/fs): returns nil at once when encryption
is disabled; otherwise runs gpg, and on a gpg error still succeeds when
the encrypted output file exists with positive size (the gpg exit-code
workaround in the source). -/
def EncryptFile (config : AppConfig) (env : FileEnv) : Bool × List Action :=
  if !config.Encrypt then (true, [])
  else
    if env.gpgOk then (true, [Action.runGpg])
    else
      match env.encFileSize with
      | some n => (n > 0, [Action.runGpg])
      | none => (false, [Action.runGpg])

/-- `fs.DeleteFile` (internal/fs): removes the original (retrying the
remove once on error), then the gzip artifact when gzip is enabled,
then the encrypted artifact when encryption is enabled; returns the
first error. -/
def DeleteFile (config : AppConfig) (env : FileEnv) : Bool × List Action :=
  let origTrace : List Action :=
    if env.removeOrigOk1 then [Action.removeOrig]
    else [Action.removeOrig, Action.removeOrig]
  let origOk : Bool := env.removeOrigOk1 || env.removeOrigOk2
  if !origOk then (false, origTrace)
  else
    let afterGzip : Bool × List Action :=
      if config.Gzip then (env.removeGzipOk, origTrace ++ [Action.removeGzip])
      else (true, origTrace)
    if !afterGzip.1 then afterGzip
    else
      if config.Encrypt then
        (env.removeEncOk, afterGzip.2 ++ [Action.removeEnc])
      else afterGzip

/-- The outcome of the upload stage selected by `sendFileS3`: dry-run
uses `s3.FakeUploadFile`, otherwise `client.UploadFile`; both return the
transferred byte count or an error. -/
def uploadOutcome (config : AppConfig) (env : FileEnv) : Option Int :=
  if config.DryRun then env.fakeUploadRes else env.uploadRes

/-- The Action recorded for the upload stage of `sendFileS3`. -/
def uploadAction (config : AppConfig) : Action :=
  if config.DryRun then Action.fakeUpload else Action.upload

/-- `sendFileS3` (main.go): stat the original, gzip, encrypt, upload;
after a successful upload add the original and transferred byte counts
to the metrics sums and delete the local artifacts. Any stage error is
returned at once. Result: (success, updated metrics, actions). -/
def sendFileS3 (config : AppConfig) (env : FileEnv) (m : AppMetrics) :
    Bool × AppMetrics × List Action :=
  match env.statRes with
  | none => (false, m, [Action.statOrig])
  | some origSize =>
    let gz := GzipFile config env
    if !gz.1 then (false, m, Action.statOrig :: gz.2)
    else
      let enc := EncryptFile config env
      if !enc.1 then (false, m, Action.statOrig :: (gz.2 ++ enc.2))
      else
        match uploadOutcome config env with
        | none =>
          (false, m, Action.statOrig :: (gz.2 ++ enc.2 ++ [uploadAction config]))
        | some uploadedBytes =>
          let m2 := { m with
            fileOrigBytesSum := m.fileOrigBytesSum + origSize,
            fileSendBytesSum := m.fileSendBytesSum + uploadedBytes }
          let del := DeleteFile config env
          (del.1, m2,
            Action.statOrig :: (gz.2 ++ enc.2 ++ [uploadAction config] ++ del.2))

/-- The worker's per-message processing (main.go worker, the non-sentinel
branch): increment FileSendCount, run sendFileS3, then increment
FileSendErrors on error and FileSendSuccess on success. -/
def workerProcessFile (config : AppConfig) (env : FileEnv) (m : AppMetrics) :
    Bool × AppMetrics × List Action :=
  let m1 := { m with fileSendCount := m.fileSendCount + 1 }
  let r := sendFileS3 config env m1
  if r.1 then
    (true, { r.2.1 with fileSendSuccess := r.2.1.fileSendSuccess + 1 }, r.2.2)
  else
    (false, { r.2.1 with fileSendErrors := r.2.1.fileSendErrors + 1 }, r.2.2)

/-! ## Directory producer (internal/fs) -/

/-- fsnotify operation bit for Create (fsnotify.Create = 1 << 0). -/
def fsnotifyCreate : Nat := 1

/-- fsnotify operation bit for Write (fsnotify.Write = 1 << 1). -/
def fsnotifyWrite : Nat := 2

/-- fsnotify operation bit for Remove (fsnotify.Remove = 1 << 2). -/
def fsnotifyRemove : Nat := 4

/-- `isValidFsEvent` (internal/fs/fs.go): true iff the event operation
masked with the Create bit equals the Create bit; the Write and Remove
cases in the source are commented out. -/
def isValidFsEvent (op : Nat) : Bool :=
  (op &&& fsnotifyCreate) == fsnotifyCreate

/-- An fsnotify event: the operation bitmask and the file path the
event names. -/
structure FsEvent where
  Op : Nat
  Name : String
  deriving DecidableEq, Repr

/-- What one `fsWatch` event-branch iteration did. -/
structure WatchState where
  queue : List String
  cancelled : Bool
  stopped : Bool := false
  channelFullEvents : Nat := 0
  deriving DecidableEq, Repr

/-- One iteration of the event branch of `fsWatch`
(internal/fs/fs.go): ignore invalid events; on the configured
exit-trigger name invoke the cancel function and return; otherwise
enqueue when the channel length is below capacity, and increment the
channel-full counter instead when it is not. -/
def fsWatchEvent (config : AppConfig) (s : WatchState) (ev : FsEvent) :
    WatchState :=
  if isValidFsEvent ev.Op then
    if config.ExitOnFilename != "" && ev.Name == config.ExitOnFilename then
      { s with cancelled := true, stopped := true }
    else
      if s.queue.length < config.WorkersCannelSize then
        { s with queue := s.queue ++ [ev.Name] }
      else
        { s with channelFullEvents := s.channelFullEvents + 1 }
  else s

/-- `filepath.Join(config.PathToWatch, name)` for the simple names used
here (no separators or dot segments inside `name`). -/
def joinPath (dir name : String) : String := dir ++ "/" ++ name

/-- The sends of `fsScan`'s loop over directory entries
(internal/fs/fs.go): each entry is sent to the workers channel with a
plain Go channel send, which blocks while the buffered channel is full.
Result: the queue after the sends that completed, and `some pending`
when the producer is blocked inside a send with `pending` the entry it
is sending followed by the entries not yet reached (`none` when the
loop finished). -/
def fsScanSends (cap : Nat) (queue entries : List String) :
    List String × Option (List String) :=
  match entries with
  | [] => (queue, none)
  | e :: rest =>
    if queue.length < cap then fsScanSends cap (queue ++ [e]) rest
    else (queue, some (e :: rest))

/-- Outcome of one `fsScan` call: `fatal` embeds
`config.Applog.Fatal(err)`, which terminates the process. -/
inductive ScanOutcome where
  | fatal
  | ran (queue : List String) (pending : Option (List String))
  deriving DecidableEq, Repr

/-- `fsScan` (internal/fs/fs.go): list the watched directory (fatal on
error) and send every entry, joined with the watched path, into the
workers channel. -/
def fsScan (config : AppConfig) (readDirRes : Option (List String))
    (queue : List String) : ScanOutcome :=
  match readDirRes with
  | none => ScanOutcome.fatal
  | some entries =>
    let r := fsScanSends config.WorkersCannelSize queue
      (entries.map (joinPath config.PathToWatch))
    ScanOutcome.ran r.1 r.2

/-- Outcome of `WatchDirectory` setup: `fatal` embeds
`config.Applog.Fatal`/`Fatalf`, which terminates the process. -/
inductive SetupOutcome where
  | fatal
  | started
  deriving DecidableEq, Repr

/-- The setup part of `WatchDirectory` (internal/fs/fs.go): create the
fsnotify watcher (fatal on error), then add the watched path (fatal on
error). -/
def WatchDirectory (newWatcherOk addOk : Bool) : SetupOutcome :=
  if !newWatcherOk then SetupOutcome.fatal
  else if !addOk then SetupOutcome.fatal
  else SetupOutcome.started

/-! ## System model: workers, queue, locks, lifecycle (main.go) -/

/-- Where a worker's loop stands: blocked in its select, holding a file
between `fs.Lock` and `fs.UnLock`, or returned. -/
inductive WPhase where
  | looping
  | locked (file : String)
  | exited
  deriving DecidableEq, Repr

/-- True exactly on the `exited` phase. -/
def WPhase.isExited : WPhase → Bool
  | WPhase.exited => true
  | _ => false

/-- One worker's state: its `cfg.WorkerStatus.Running` field and its
loop phase. -/
structure WorkerSt where
  running : Bool := true
  phase : WPhase := WPhase.looping
  deriving DecidableEq, Repr

/-- The worker startup branch (main.go `worker`): set Running true,
then init the S3 client; on a client error set Running false and
return. `s3.NewClient` in internal/s3/s3.go always returns a nil
error, so the failure branch is never taken by this code. -/
def workerStart (initOk : Bool) : WorkerSt :=
  if initOk then { running := true, phase := WPhase.looping }
  else { running := false, phase := WPhase.exited }

/-- Modelled from the spec: `fs.Lock(file, id)` is called by the worker
in main.go but its implementation is not among the given source files;
the spec's File Lock Registry prescribes atomic insert-if-absent
semantics, returning whether the caller acquired the entry. -/
def fsLock (locks : List (String × Nat)) (file : String) (id : Nat) :
    List (String × Nat) × Bool :=
  if locks.any (fun p => p.1 == file) then (locks, false)
  else ((file, id) :: locks, true)

/-- Modelled from the spec: `fs.UnLock(file)` removes the registry
entry for the path. -/
def fsUnLock (locks : List (String × Nat)) (file : String) :
    List (String × Nat) :=
  locks.filter (fun p => p.1 != file)

/-- The concurrent state of the program: workers channel content,
whether it was closed, the cancellable context, the exit channel, the
lock registry, the pending entries of a scan producer blocked in a
send, metrics, and the global action log tagged by worker id. -/
structure SysState where
  queue : List String := []
  queueClosed : Bool := false
  cancelled : Bool := false
  exitSig : Bool := false
  mainDone : Bool := false
  locks : List (String × Nat) := []
  scanPending : List String := []
  metrics : AppMetrics := {}
  log : List (Nat × Action) := []
  workers : List WorkerSt
  deriving DecidableEq, Repr

/-- Worker `i`, or an inert exited worker for an index out of range. -/
def getWorker (s : SysState) (i : Nat) : WorkerSt :=
  s.workers.getD i { running := false, phase := WPhase.exited }

/-- Replace worker `i`. -/
def setWorker (s : SysState) (i : Nat) (w : WorkerSt) : SysState :=
  { s with workers := s.workers.set i w }

/-- A scheduler directive: which goroutine runs next and, for a
select with several ready branches, which branch it takes. `scanTick`
carries the `os.ReadDir` result of that tick. -/
inductive Dir where
  | workerCtx (i : Nat)
  | workerRecv (i : Nat)
  | workerProc (i : Nat)
  | uploadStep
  | scanTick (entries : List String)
  | sigOS
  | sigCtx
  | mainStep
  deriving DecidableEq, Repr

/-- What a worker does upon receiving message `f` (main.go `worker`,
`msg := <-comm` branch): on the configured exit filename call the
cancel function and return (Running is left as it was); otherwise call
`fs.Lock` — discarding its result, as the source does — and proceed to
process the file. -/
def workerRecvMsg (config : AppConfig) (s : SysState) (i : Nat)
    (w : WorkerSt) (f : String) (rest : List String) : SysState :=
  if config.ExitOnFilename != "" && f == config.ExitOnFilename then
    { setWorker s i { w with phase := WPhase.exited } with
      queue := rest, cancelled := true }
  else
    { setWorker s i { w with phase := WPhase.locked f } with
      queue := rest, locks := (fsLock s.locks f i).1 }

/-- One scheduler step of the whole program. -/
def sysStep (config : AppConfig) (envf : String → FileEnv)
    (s : SysState) : Dir → SysState
  | Dir.workerCtx i =>
    match (getWorker s i).phase with
    | WPhase.looping =>
      if s.cancelled then
        setWorker s i { getWorker s i with
          running := false, phase := WPhase.exited }
      else s
    | _ => s
  | Dir.workerRecv i =>
    match (getWorker s i).phase with
    | WPhase.looping =>
      match s.queue with
      | f :: rest => workerRecvMsg config s i (getWorker s i) f rest
      | [] =>
        if s.queueClosed then
          workerRecvMsg config s i (getWorker s i) "" []
        else s
    | _ => s
  | Dir.workerProc i =>
    match (getWorker s i).phase with
    | WPhase.locked f =>
      let r := workerProcessFile config (envf f) s.metrics
      { setWorker s i { getWorker s i with phase := WPhase.looping } with
        metrics := r.2.1,
        log := s.log ++ r.2.2.map (fun a => (i, a)),
        locks := fsUnLock s.locks f }
    | _ => s
  | Dir.uploadStep =>
    if s.cancelled then { s with queueClosed := true } else s
  | Dir.scanTick entries =>
    if s.cancelled then s
    else
      let r := fsScanSends config.WorkersCannelSize s.queue
        (entries.map (joinPath config.PathToWatch))
      { s with queue := r.1, scanPending := r.2.getD [] }
  | Dir.sigOS => { s with cancelled := true, exitSig := true }
  | Dir.sigCtx => if s.cancelled then { s with exitSig := true } else s
  | Dir.mainStep =>
    if s.exitSig && s.workers.all (fun w => w.phase.isExited) then
      { s with mainDone := true }
    else s

/-- Run a schedule from a state. -/
def sysRun (config : AppConfig) (envf : String → FileEnv) :
    SysState → List Dir → SysState
  | s, [] => s
  | s, d :: ds => sysRun config envf (sysStep config envf s d) ds

/-- The state right after main started `n` workers: every worker has
set Running true and initialized its client (which always succeeds). -/
def sysInit (n : Nat) : SysState :=
  { workers := List.replicate n {} }

/-! ## CLI flag wiring (main.go) -/

/-- The parsed values of the boolean flags registered in main.go under
the flag names "gzip" and "encrypt". -/
structure FlagInputs where
  gzipFlagValue : Bool := true
  encryptFlagValue : Bool := true
  deriving DecidableEq, Repr

/-- The flag bindings of main.go: `flag.BoolVar(&config.Encrypt,
"gzip", true, ...)` stores the flag registered under the name "gzip"
into the field `Encrypt`, and `flag.BoolVar(&config.Gzip, "encrypt",
true, ...)` stores the flag registered under the name "encrypt" into
the field `Gzip`. -/
def bindFlags (f : FlagInputs) (base : AppConfig) : AppConfig :=
  { base with Encrypt := f.gzipFlagValue, Gzip := f.encryptFlagValue }

/-- The GPG password check of main.go: fatal iff `config.Encrypt` is
set and the password environment variable is empty. -/
def gpgPasswordCheckFatal (config : AppConfig) (envPassword : String) :
    Bool :=
  config.Encrypt && envPassword == ""

/-! ## Theorems -/

/-- C9: the watch-mode event filter accepts exactly the creation
events: `isValidFsEvent` is true iff the operation has the Create bit
(the lowest bit) set; pure Write and pure Remove events are
rejected, a Create event is accepted. -/
theorem claim_C9_isValidFsEvent_create_only :
    (∀ op : Nat, isValidFsEvent op = true ↔ Nat.testBit op 0 = true) ∧
    isValidFsEvent fsnotifyWrite = false ∧
    isValidFsEvent fsnotifyRemove = false ∧
    isValidFsEvent fsnotifyCreate = true ∧
    isValidFsEvent (fsnotifyCreate ||| fsnotifyWrite) = true := by
  refine ⟨fun op => ?_, by decide, by decide, by decide, by decide⟩
  unfold isValidFsEvent fsnotifyCreate
  rw [Nat.and_one_is_mod, Nat.testBit_zero]
  constructor
  · intro h
    simpa using h
  · intro h
    simpa using h

/-- C8: producer setup failure is fatal. `fsScan` calls
`config.Applog.Fatal` when the watched directory cannot be listed, and
`WatchDirectory` calls it when the fsnotify watcher cannot be created
or the watch path cannot be added; in every other case setup
proceeds. -/
theorem claim_C8_producer_setup_fatal :
    (∀ (config : AppConfig) (queue : List String),
      fsScan config none queue = ScanOutcome.fatal) ∧
    (∀ newWatcherOk addOk : Bool,
      WatchDirectory newWatcherOk addOk = SetupOutcome.fatal ↔
        ¬(newWatcherOk = true ∧ addOk = true)) := by
  constructor
  · intro config queue
    rfl
  · intro a b
    cases a <;> cases b <;> simp [WatchDirectory]

/-- C10: the flag registered under the name "gzip" sets the field
`Encrypt` and the flag registered under the name "encrypt" sets the
field `Gzip`; consequently the GPG-password fatal check, which reads
`config.Encrypt`, is gated on the flag named "gzip" and ignores the
flag named "encrypt". -/
theorem claim_C10_gzip_encrypt_flags_swapped :
    ∀ (f : FlagInputs) (base : AppConfig) (pw : String),
      (bindFlags f base).Encrypt = f.gzipFlagValue ∧
      (bindFlags f base).Gzip = f.encryptFlagValue ∧
      gpgPasswordCheckFatal (bindFlags f base) pw =
        (f.gzipFlagValue && pw == "") ∧
      gpgPasswordCheckFatal
        (bindFlags { gzipFlagValue := false, encryptFlagValue := true } base)
        "" = false := by
  intro f base pw
  refine ⟨rfl, rfl, ?_, rfl⟩
  rfl

/-- C1 counterexample: scan mode does not drop on a full queue. With
capacity 1 and the queue already holding one item, `fsScan` of one
entry neither drops the item nor increments any counter: it is stuck
in a blocking channel send (`pending` is `some`), refuting the claim
that both strategies drop, count and never block. The claimed
behavior would be a completed loop with the queue unchanged,
`ScanOutcome.ran [preexisting] none`. -/
theorem claim_C1_counterexample :
    fsScan { WorkersCannelSize := 1, PathToWatch := "d" } (some ["a"])
        ["d/x"] =
      ScanOutcome.ran ["d/x"] (some ["d/a"]) ∧
    fsScan { WorkersCannelSize := 1, PathToWatch := "d" } (some ["a"])
        ["d/x"] ≠
      ScanOutcome.ran ["d/x"] none := by
  constructor
  · rfl
  · decide

/-- C1 (amended): only the watch strategy honors backpressure by
dropping. The event branch of `fsWatch` checks the channel length
against capacity: below capacity the name is enqueued, at capacity the
item is dropped and the channel-full counter incremented, and the
iteration always completes. The scan strategy performs a plain
blocking channel send with no capacity check and no counter: at
capacity `fsScanSends` stops inside the send with the queue and the
counter untouched. -/
theorem claim_C1_amended :
    (∀ (config : AppConfig) (s : WatchState) (ev : FsEvent),
      isValidFsEvent ev.Op = true →
      (config.ExitOnFilename != "" && ev.Name == config.ExitOnFilename)
        = false →
      (s.queue.length < config.WorkersCannelSize →
        fsWatchEvent config s ev = { s with queue := s.queue ++ [ev.Name] }) ∧
      (config.WorkersCannelSize ≤ s.queue.length →
        fsWatchEvent config s ev =
          { s with channelFullEvents := s.channelFullEvents + 1 })) ∧
    (∀ (cap : Nat) (q entries : List String) (e : String),
      cap ≤ q.length →
      fsScanSends cap q (e :: entries) = (q, some (e :: entries))) := by
  constructor
  · intro config s ev hvalid hsent
    constructor
    · intro hlt
      simp [fsWatchEvent, hvalid, hsent, hlt]
    · intro hge
      simp [fsWatchEvent, hvalid, hsent, Nat.not_lt.mpr hge]
  · intro cap q entries e hge
    simp [fsScanSends, Nat.not_lt.mpr hge]

/-- When the queue has room for all entries, the scan loop sends every
one of them in order. -/
theorem fsScanSends_complete (cap : Nat) :
    ∀ (entries q : List String), q.length + entries.length ≤ cap →
      fsScanSends cap q entries = (q ++ entries, none) := by
  intro entries
  induction entries with
  | nil => intro q _; simp [fsScanSends]
  | cons e rest ih =>
    intro q h
    have hlt : q.length < cap := by
      simp at h
      omega
    have hrest : (q ++ [e]).length + rest.length ≤ cap := by
      simp at h ⊢
      omega
    simp [fsScanSends, hlt, ih (q ++ [e]) hrest]

/-- Reading back the worker just written. -/
theorem getWorker_setWorker (s : SysState) (i : Nat) (w : WorkerSt)
    (h : i < s.workers.length) : getWorker (setWorker s i w) i = w := by
  unfold getWorker setWorker
  rw [List.getD_eq_getElem]
  · apply List.getElem_set_self
  · simpa using h

/-- C5 counterexample: in scan mode the sentinel filename is enqueued
as ordinary work. With the exit trigger configured as "d/stop" and the
scanner finding the entry "stop" under the watched path "d", `fsScan`
sends "d/stop" into the workers channel and completes; no cancellation
is invoked by the scan producer (its outcome carries none), refuting
the claim that both strategies cancel and never enqueue the sentinel. -/
theorem claim_C5_counterexample :
    fsScan
        { WorkersCannelSize := 4, PathToWatch := "d",
          ExitOnFilename := "d/stop" }
        (some ["stop"]) [] =
      ScanOutcome.ran ["d/stop"] none := by
  rfl

/-- C5 (amended): only the watch strategy checks the sentinel at
discovery: `fsWatch` on a valid event whose name equals the non-empty
configured exit filename invokes the cancel function and stops without
enqueuing. The scan strategy enqueues every directory entry, the
sentinel included, and the check happens in the worker instead: a
worker receiving the sentinel message invokes the cancel function and
returns without locking, processing or counting it. -/
theorem claim_C5_amended :
    (∀ (config : AppConfig) (s : WatchState) (ev : FsEvent),
      isValidFsEvent ev.Op = true →
      (config.ExitOnFilename != "" && ev.Name == config.ExitOnFilename)
        = true →
      fsWatchEvent config s ev =
        { s with cancelled := true, stopped := true }) ∧
    (∀ (config : AppConfig) (entries q : List String),
      q.length + entries.length ≤ config.WorkersCannelSize →
      fsScan config (some entries) q =
        ScanOutcome.ran
          (q ++ entries.map (joinPath config.PathToWatch)) none) ∧
    (∀ (config : AppConfig) (envf : String → FileEnv) (s : SysState)
      (i : Nat) (f : String) (rest : List String),
      (getWorker s i).phase = WPhase.looping →
      s.queue = f :: rest →
      (config.ExitOnFilename != "" && f == config.ExitOnFilename) = true →
      i < s.workers.length →
      (sysStep config envf s (Dir.workerRecv i)).cancelled = true ∧
      (sysStep config envf s (Dir.workerRecv i)).queue = rest ∧
      (sysStep config envf s (Dir.workerRecv i)).log = s.log ∧
      (sysStep config envf s (Dir.workerRecv i)).locks = s.locks ∧
      (sysStep config envf s (Dir.workerRecv i)).metrics = s.metrics ∧
      (getWorker (sysStep config envf s (Dir.workerRecv i)) i).phase =
        WPhase.exited) := by
  refine ⟨?_, ?_, ?_⟩
  · intro config s ev hvalid hsent
    simp [fsWatchEvent, hvalid, hsent]
  · intro config entries q h
    have := fsScanSends_complete config.WorkersCannelSize
      (entries.map (joinPath config.PathToWatch)) q (by simpa using h)
    simp [fsScan, this]
  · intro config envf s i f rest hph hq hsent hi
    have hstep : sysStep config envf s (Dir.workerRecv i) =
        { setWorker s i { getWorker s i with phase := WPhase.exited } with
          queue := rest, cancelled := true } := by
      simp only [sysStep]
      rw [hph, hq]
      simp [workerRecvMsg, hsent]
    rw [hstep]
    have hgw : getWorker
        ({ setWorker s i { getWorker s i with phase := WPhase.exited } with
          queue := rest, cancelled := true }) i =
        { getWorker s i with phase := WPhase.exited } := by
      have := getWorker_setWorker s i
        { getWorker s i with phase := WPhase.exited } hi
      simpa [getWorker, setWorker] using this
    refine ⟨rfl, rfl, by simp [setWorker], by simp [setWorker],
      by simp [setWorker], ?_⟩
    rw [hgw]

/-- The compress stage performs at most the tar call. -/
theorem GzipFile_trace (c : AppConfig) (e : FileEnv) :
    List.Sublist (GzipFile c e).2 [Action.runTar] := by
  cases h : c.Gzip <;> simp [GzipFile, h]

/-- The encrypt stage performs at most the gpg call. -/
theorem EncryptFile_trace (c : AppConfig) (e : FileEnv) :
    List.Sublist (EncryptFile c e).2 [Action.runGpg] := by
  cases h : c.Encrypt <;> cases hg : e.gpgOk <;>
    cases hs : e.encFileSize <;> simp [EncryptFile, h, hg, hs]

/-- The cleanup stage performs only remove calls, in the order
original (possibly twice), gzip artifact, encrypted artifact. -/
theorem DeleteFile_trace (c : AppConfig) (e : FileEnv) :
    List.Sublist (DeleteFile c e).2
      [Action.removeOrig, Action.removeOrig, Action.removeGzip,
       Action.removeEnc] := by
  cases h1 : e.removeOrigOk1 <;> cases h2 : e.removeOrigOk2 <;>
    cases hg : c.Gzip <;> cases hge : e.removeGzipOk <;>
    cases he : c.Encrypt <;>
    simp [DeleteFile, h1, h2, hg, hge, he]

/-- Everything the compress stage does is the tar call. -/
theorem mem_GzipFile_trace {c : AppConfig} {e : FileEnv} {a : Action}
    (h : a ∈ (GzipFile c e).2) : a = Action.runTar := by
  have := (GzipFile_trace c e).subset h
  simpa using this

/-- Everything the encrypt stage does is the gpg call. -/
theorem mem_EncryptFile_trace {c : AppConfig} {e : FileEnv} {a : Action}
    (h : a ∈ (EncryptFile c e).2) : a = Action.runGpg := by
  have := (EncryptFile_trace c e).subset h
  simpa using this

/-- Everything the cleanup stage does is a remove call. -/
theorem mem_DeleteFile_trace {c : AppConfig} {e : FileEnv} {a : Action}
    (h : a ∈ (DeleteFile c e).2) :
    a = Action.removeOrig ∨ a = Action.removeGzip ∨ a = Action.removeEnc := by
  have := (DeleteFile_trace c e).subset h
  simpa using this

/-- sendFileS3 fails when the initial stat fails. -/
theorem sendFileS3_stat_none_fst {c : AppConfig} {e : FileEnv}
    {m : AppMetrics} (h : e.statRes = none) :
    (sendFileS3 c e m).1 = false := by
  simp [sendFileS3, h]

/-- Trace of sendFileS3 when the initial stat fails. -/
theorem sendFileS3_stat_none_trace {c : AppConfig} {e : FileEnv}
    {m : AppMetrics} (h : e.statRes = none) :
    (sendFileS3 c e m).2.2 = [Action.statOrig] := by
  simp [sendFileS3, h]

/-- sendFileS3 fails when the compress stage fails. -/
theorem sendFileS3_gzip_fail_fst {c : AppConfig} {e : FileEnv}
    {m : AppMetrics} {n : Int} (hst : e.statRes = some n)
    (hgz : (GzipFile c e).1 = false) : (sendFileS3 c e m).1 = false := by
  simp [sendFileS3, hst, hgz]

/-- Trace of sendFileS3 when the compress stage fails. -/
theorem sendFileS3_gzip_fail_trace {c : AppConfig} {e : FileEnv}
    {m : AppMetrics} {n : Int} (hst : e.statRes = some n)
    (hgz : (GzipFile c e).1 = false) :
    (sendFileS3 c e m).2.2 = Action.statOrig :: (GzipFile c e).2 := by
  simp [sendFileS3, hst, hgz]

/-- sendFileS3 fails when the encrypt stage fails. -/
theorem sendFileS3_enc_fail_fst {c : AppConfig} {e : FileEnv}
    {m : AppMetrics} {n : Int} (hst : e.statRes = some n)
    (hgz : (GzipFile c e).1 = true) (henc : (EncryptFile c e).1 = false) :
    (sendFileS3 c e m).1 = false := by
  simp [sendFileS3, hst, hgz, henc]

/-- Trace of sendFileS3 when the encrypt stage fails. -/
theorem sendFileS3_enc_fail_trace {c : AppConfig} {e : FileEnv}
    {m : AppMetrics} {n : Int} (hst : e.statRes = some n)
    (hgz : (GzipFile c e).1 = true) (henc : (EncryptFile c e).1 = false) :
    (sendFileS3 c e m).2.2 =
      Action.statOrig :: ((GzipFile c e).2 ++ (EncryptFile c e).2) := by
  simp [sendFileS3, hst, hgz, henc]

/-- sendFileS3 fails when the upload fails. -/
theorem sendFileS3_upload_fail_fst {c : AppConfig} {e : FileEnv}
    {m : AppMetrics} {n : Int} (hst : e.statRes = some n)
    (hgz : (GzipFile c e).1 = true) (henc : (EncryptFile c e).1 = true)
    (hup : uploadOutcome c e = none) : (sendFileS3 c e m).1 = false := by
  simp [sendFileS3, hst, hgz, henc, hup]

/-- Trace of sendFileS3 when the upload fails. -/
theorem sendFileS3_upload_fail_trace {c : AppConfig} {e : FileEnv}
    {m : AppMetrics} {n : Int} (hst : e.statRes = some n)
    (hgz : (GzipFile c e).1 = true) (henc : (EncryptFile c e).1 = true)
    (hup : uploadOutcome c e = none) :
    (sendFileS3 c e m).2.2 =
      Action.statOrig ::
        ((GzipFile c e).2 ++ (EncryptFile c e).2 ++ [uploadAction c]) := by
  simp [sendFileS3, hst, hgz, henc, hup]

/-- Result of sendFileS3 when the upload succeeds: cleanup decides the
overall result. -/
theorem sendFileS3_upload_ok_fst {c : AppConfig} {e : FileEnv}
    {m : AppMetrics} {n b : Int} (hst : e.statRes = some n)
    (hgz : (GzipFile c e).1 = true) (henc : (EncryptFile c e).1 = true)
    (hup : uploadOutcome c e = some b) :
    (sendFileS3 c e m).1 = (DeleteFile c e).1 := by
  simp [sendFileS3, hst, hgz, henc, hup]

/-- Metrics of sendFileS3 when the upload succeeds: the original and
transferred byte counts are added to the sums. -/
theorem sendFileS3_upload_ok_metrics {c : AppConfig} {e : FileEnv}
    {m : AppMetrics} {n b : Int} (hst : e.statRes = some n)
    (hgz : (GzipFile c e).1 = true) (henc : (EncryptFile c e).1 = true)
    (hup : uploadOutcome c e = some b) :
    (sendFileS3 c e m).2.1 =
      { m with fileOrigBytesSum := m.fileOrigBytesSum + n,
               fileSendBytesSum := m.fileSendBytesSum + b } := by
  simp [sendFileS3, hst, hgz, henc, hup]

/-- Trace of sendFileS3 when the upload succeeds. -/
theorem sendFileS3_upload_ok_trace {c : AppConfig} {e : FileEnv}
    {m : AppMetrics} {n b : Int} (hst : e.statRes = some n)
    (hgz : (GzipFile c e).1 = true) (henc : (EncryptFile c e).1 = true)
    (hup : uploadOutcome c e = some b) :
    (sendFileS3 c e m).2.2 =
      Action.statOrig ::
        ((GzipFile c e).2 ++ (EncryptFile c e).2 ++ [uploadAction c] ++
          (DeleteFile c e).2) := by
  simp [sendFileS3, hst, hgz, henc, hup]

/-- The upload stage action is one of the two upload actions. -/
theorem uploadAction_cases (c : AppConfig) :
    uploadAction c = Action.fakeUpload ∨ uploadAction c = Action.upload := by
  cases hd : c.DryRun <;> simp [uploadAction, hd]

/-- C2: the stages of sendFileS3 run in the strict order stat, compress
(GzipFile), encrypt (EncryptFile), upload, local deletion (DeleteFile) —
the action trace is a sublist of that canonical order — and the
sequence short-circuits at the first failing stage: after a stat error
nothing else runs, after a compress error neither gpg nor any upload
nor removal runs, after an encrypt error no upload and no removal runs,
after an upload error no removal runs; any removal in the trace implies
every earlier stage succeeded, so local artifacts are deleted only
after a successful upload. -/
theorem claim_C2_pipeline_order :
    ∀ (config : AppConfig) (env : FileEnv) (m : AppMetrics),
      (List.Sublist (sendFileS3 config env m).2.2
        [Action.statOrig, Action.runTar, Action.runGpg, Action.fakeUpload,
         Action.upload, Action.removeOrig, Action.removeOrig,
         Action.removeGzip, Action.removeEnc]) ∧
      (env.statRes = none →
        (sendFileS3 config env m).1 = false ∧
        (sendFileS3 config env m).2.2 = [Action.statOrig]) ∧
      ((GzipFile config env).1 = false →
        (sendFileS3 config env m).1 = false ∧
        Action.runGpg ∉ (sendFileS3 config env m).2.2 ∧
        Action.fakeUpload ∉ (sendFileS3 config env m).2.2 ∧
        Action.upload ∉ (sendFileS3 config env m).2.2 ∧
        Action.removeOrig ∉ (sendFileS3 config env m).2.2) ∧
      ((EncryptFile config env).1 = false →
        (sendFileS3 config env m).1 = false ∧
        Action.fakeUpload ∉ (sendFileS3 config env m).2.2 ∧
        Action.upload ∉ (sendFileS3 config env m).2.2 ∧
        Action.removeOrig ∉ (sendFileS3 config env m).2.2) ∧
      (uploadOutcome config env = none →
        (sendFileS3 config env m).1 = false ∧
        Action.removeOrig ∉ (sendFileS3 config env m).2.2 ∧
        Action.removeGzip ∉ (sendFileS3 config env m).2.2 ∧
        Action.removeEnc ∉ (sendFileS3 config env m).2.2) ∧
      ((Action.removeOrig ∈ (sendFileS3 config env m).2.2 ∨
        Action.removeGzip ∈ (sendFileS3 config env m).2.2 ∨
        Action.removeEnc ∈ (sendFileS3 config env m).2.2) →
        env.statRes ≠ none ∧ (GzipFile config env).1 = true ∧
        (EncryptFile config env).1 = true ∧
        uploadOutcome config env ≠ none) := by
  intro config env m
  rcases hst : env.statRes with _ | n
  · rw [sendFileS3_stat_none_trace hst]
    exact ⟨by decide, fun _ => ⟨sendFileS3_stat_none_fst hst, rfl⟩,
      fun _ => ⟨sendFileS3_stat_none_fst hst, by decide, by decide,
        by decide, by decide⟩,
      fun _ => ⟨sendFileS3_stat_none_fst hst, by decide, by decide,
        by decide⟩,
      fun _ => ⟨sendFileS3_stat_none_fst hst, by decide, by decide,
        by decide⟩,
      fun h => by rcases h with h | h | h <;> simp at h⟩
  · cases hgz : (GzipFile config env).1
    · rw [sendFileS3_gzip_fail_trace hst hgz]
      have hmem : ∀ a : Action,
          a ∈ Action.statOrig :: (GzipFile config env).2 →
          a = Action.statOrig ∨ a = Action.runTar := by
        intro a ha
        rcases List.mem_cons.mp ha with h | h
        · exact Or.inl h
        · exact Or.inr (mem_GzipFile_trace h)
      have hno : ∀ a : Action, a ≠ Action.statOrig → a ≠ Action.runTar →
          a ∉ Action.statOrig :: (GzipFile config env).2 := by
        intro a h1 h2 hmem2
        rcases hmem a hmem2 with h | h <;> simp_all
      have hsub : List.Sublist (Action.statOrig :: (GzipFile config env).2)
          [Action.statOrig, Action.runTar] :=
        List.Sublist.cons₂ _ (GzipFile_trace config env)
      refine ⟨hsub.trans (by decide), fun hc => by simp [hst] at hc,
        fun _ => ⟨sendFileS3_gzip_fail_fst hst hgz,
          hno _ (by decide) (by decide), hno _ (by decide) (by decide),
          hno _ (by decide) (by decide), hno _ (by decide) (by decide)⟩,
        fun _ => ⟨sendFileS3_gzip_fail_fst hst hgz,
          hno _ (by decide) (by decide), hno _ (by decide) (by decide),
          hno _ (by decide) (by decide)⟩,
        fun _ => ⟨sendFileS3_gzip_fail_fst hst hgz,
          hno _ (by decide) (by decide), hno _ (by decide) (by decide),
          hno _ (by decide) (by decide)⟩,
        fun h => ?_⟩
      rcases h with h | h | h <;> exact absurd (hmem _ h) (by decide)
    · cases henc : (EncryptFile config env).1
      · rw [sendFileS3_enc_fail_trace hst hgz henc]
        have hmem : ∀ a : Action,
            a ∈ Action.statOrig ::
              ((GzipFile config env).2 ++ (EncryptFile config env).2) →
            a = Action.statOrig ∨ a = Action.runTar ∨ a = Action.runGpg := by
          intro a ha
          rcases List.mem_cons.mp ha with h | h
          · exact Or.inl h
          · rcases List.mem_append.mp h with h | h
            · exact Or.inr (Or.inl (mem_GzipFile_trace h))
            · exact Or.inr (Or.inr (mem_EncryptFile_trace h))
        have hno : ∀ a : Action, a ≠ Action.statOrig → a ≠ Action.runTar →
            a ≠ Action.runGpg →
            a ∉ Action.statOrig ::
              ((GzipFile config env).2 ++ (EncryptFile config env).2) := by
          intro a h1 h2 h3 hmem2
          rcases hmem a hmem2 with h | h | h <;> simp_all
        have hsub : List.Sublist
            (Action.statOrig ::
              ((GzipFile config env).2 ++ (EncryptFile config env).2))
            (Action.statOrig :: ([Action.runTar] ++ [Action.runGpg])) :=
          List.Sublist.cons₂ _ (List.Sublist.append
            (GzipFile_trace config env) (EncryptFile_trace config env))
        refine ⟨hsub.trans (by decide), fun hc => by simp [hst] at hc,
          fun hc => by simp [hgz] at hc,
          fun _ => ⟨sendFileS3_enc_fail_fst hst hgz henc,
            hno _ (by decide) (by decide) (by decide),
            hno _ (by decide) (by decide) (by decide),
            hno _ (by decide) (by decide) (by decide)⟩,
          fun _ => ⟨sendFileS3_enc_fail_fst hst hgz henc,
            hno _ (by decide) (by decide) (by decide),
            hno _ (by decide) (by decide) (by decide),
            hno _ (by decide) (by decide) (by decide)⟩,
          fun h => ?_⟩
        rcases h with h | h | h <;> exact absurd (hmem _ h) (by decide)
      · rcases hup : uploadOutcome config env with _ | b
        · rw [sendFileS3_upload_fail_trace hst hgz henc hup]
          have hmem : ∀ a : Action,
              a ∈ Action.statOrig ::
                ((GzipFile config env).2 ++ (EncryptFile config env).2 ++
                  [uploadAction config]) →
              a = Action.statOrig ∨ a = Action.runTar ∨
                a = Action.runGpg ∨ a = uploadAction config := by
            intro a ha
            rcases List.mem_cons.mp ha with h | h
            · exact Or.inl h
            · rcases List.mem_append.mp h with h | h
              · rcases List.mem_append.mp h with h | h
                · exact Or.inr (Or.inl (mem_GzipFile_trace h))
                · exact Or.inr (Or.inr (Or.inl (mem_EncryptFile_trace h)))
              · simp at h
                exact Or.inr (Or.inr (Or.inr h))
          have hno : ∀ a : Action, a ≠ Action.statOrig →
              a ≠ Action.runTar → a ≠ Action.runGpg →
              a ≠ Action.fakeUpload → a ≠ Action.upload →
              a ∉ Action.statOrig ::
                ((GzipFile config env).2 ++ (EncryptFile config env).2 ++
                  [uploadAction config]) := by
            intro a h1 h2 h3 h4 h5 hmem2
            rcases hmem a hmem2 with h | h | h | h
            · exact h1 h
            · exact h2 h
            · exact h3 h
            · rcases uploadAction_cases config with hu | hu <;> simp_all
          have hsubUp : List.Sublist [uploadAction config]
              [Action.fakeUpload, Action.upload] := by
            rcases uploadAction_cases config with hu | hu <;> rw [hu] <;>
              decide
          have hsub : List.Sublist
              (Action.statOrig ::
                ((GzipFile config env).2 ++ (EncryptFile config env).2 ++
                  [uploadAction config]))
              (Action.statOrig ::
                ([Action.runTar] ++ [Action.runGpg] ++
                  [Action.fakeUpload, Action.upload])) :=
            List.Sublist.cons₂ _ (List.Sublist.append
              (List.Sublist.append (GzipFile_trace config env)
                (EncryptFile_trace config env)) hsubUp)
          refine ⟨hsub.trans (by decide), fun hc => by simp [hst] at hc,
            fun hc => by simp [hgz] at hc, fun hc => by simp [henc] at hc,
            fun _ => ⟨sendFileS3_upload_fail_fst hst hgz henc hup,
              hno _ (by decide) (by decide) (by decide) (by decide)
                (by decide),
              hno _ (by decide) (by decide) (by decide) (by decide)
                (by decide),
              hno _ (by decide) (by decide) (by decide) (by decide)
                (by decide)⟩,
            fun h => ?_⟩
          rcases h with h | h | h <;> rcases hmem _ h with hx | hx | hx | hx
            <;> first
              | simp at hx
              | (rcases uploadAction_cases config with hu | hu <;>
                  simp_all)
        · rw [sendFileS3_upload_ok_trace hst hgz henc hup]
          have hsubUp : List.Sublist [uploadAction config]
              [Action.fakeUpload, Action.upload] := by
            rcases uploadAction_cases config with hu | hu <;> rw [hu] <;>
              decide
          have hsub : List.Sublist
              (Action.statOrig ::
                ((GzipFile config env).2 ++ (EncryptFile config env).2 ++
                  [uploadAction config] ++ (DeleteFile config env).2))
              (Action.statOrig ::
                ([Action.runTar] ++ [Action.runGpg] ++
                  [Action.fakeUpload, Action.upload] ++
                  [Action.removeOrig, Action.removeOrig, Action.removeGzip,
                   Action.removeEnc])) :=
            List.Sublist.cons₂ _ (List.Sublist.append (List.Sublist.append
              (List.Sublist.append (GzipFile_trace config env)
                (EncryptFile_trace config env)) hsubUp)
              (DeleteFile_trace config env))
          exact ⟨hsub.trans (by decide), fun hc => by simp [hst] at hc,
            fun hc => by simp [hgz] at hc, fun hc => by simp [henc] at hc,
            fun hc => by simp [hup] at hc,
            fun _ => ⟨by simp, rfl, rfl, by simp⟩⟩

/-- A failure of any stage before deletion makes sendFileS3 fail
without attempting any removal. -/
theorem sendFileS3_fail {c : AppConfig} {e : FileEnv} {m : AppMetrics}
    (hfail : e.statRes = none ∨ (GzipFile c e).1 = false ∨
      (EncryptFile c e).1 = false ∨ uploadOutcome c e = none) :
    (sendFileS3 c e m).1 = false ∧
    Action.removeOrig ∉ (sendFileS3 c e m).2.2 ∧
    Action.removeGzip ∉ (sendFileS3 c e m).2.2 ∧
    Action.removeEnc ∉ (sendFileS3 c e m).2.2 ∧
    (sendFileS3 c e m).2.1 = m := by
  have hnorm : ∀ tr : List Action,
      (∀ a : Action, a ∈ tr → a = Action.statOrig ∨ a = Action.runTar ∨
        a = Action.runGpg ∨ a = Action.fakeUpload ∨ a = Action.upload) →
      Action.removeOrig ∉ tr ∧ Action.removeGzip ∉ tr ∧
        Action.removeEnc ∉ tr := by
    intro tr htr
    refine ⟨fun h => ?_, fun h => ?_, fun h => ?_⟩ <;>
      rcases htr _ h with hx | hx | hx | hx | hx <;> simp at hx
  rcases hst : e.statRes with _ | n
  · rw [sendFileS3_stat_none_trace hst]
    refine ⟨sendFileS3_stat_none_fst hst, ?_, ?_, ?_, by simp [sendFileS3, hst]⟩
      <;> decide
  · cases hgz : (GzipFile c e).1
    · rw [sendFileS3_gzip_fail_trace hst hgz]
      refine ⟨sendFileS3_gzip_fail_fst hst hgz, ?_⟩
      have := hnorm (Action.statOrig :: (GzipFile c e).2) ?_
      · exact ⟨this.1, this.2.1, this.2.2, by simp [sendFileS3, hst, hgz]⟩
      · intro a ha
        rcases List.mem_cons.mp ha with h | h
        · exact Or.inl h
        · exact Or.inr (Or.inl (mem_GzipFile_trace h))
    · cases henc : (EncryptFile c e).1
      · rw [sendFileS3_enc_fail_trace hst hgz henc]
        refine ⟨sendFileS3_enc_fail_fst hst hgz henc, ?_⟩
        have := hnorm
          (Action.statOrig :: ((GzipFile c e).2 ++ (EncryptFile c e).2)) ?_
        · exact ⟨this.1, this.2.1, this.2.2,
            by simp [sendFileS3, hst, hgz, henc]⟩
        · intro a ha
          rcases List.mem_cons.mp ha with h | h
          · exact Or.inl h
          · rcases List.mem_append.mp h with h | h
            · exact Or.inr (Or.inl (mem_GzipFile_trace h))
            · exact Or.inr (Or.inr (Or.inl (mem_EncryptFile_trace h)))
      · rcases hup : uploadOutcome c e with _ | b
        · rw [sendFileS3_upload_fail_trace hst hgz henc hup]
          refine ⟨sendFileS3_upload_fail_fst hst hgz henc hup, ?_⟩
          have := hnorm (Action.statOrig ::
            ((GzipFile c e).2 ++ (EncryptFile c e).2 ++
              [uploadAction c])) ?_
          · exact ⟨this.1, this.2.1, this.2.2,
              by simp [sendFileS3, hst, hgz, henc, hup]⟩
          · intro a ha
            rcases List.mem_cons.mp ha with h | h
            · exact Or.inl h
            · rcases List.mem_append.mp h with h | h
              · rcases List.mem_append.mp h with h | h
                · exact Or.inr (Or.inl (mem_GzipFile_trace h))
                · exact Or.inr (Or.inr (Or.inl (mem_EncryptFile_trace h)))
              · simp at h
                rcases uploadAction_cases c with hu | hu <;> rw [hu] at h <;>
                  simp [h]
        · rcases hfail with h | h | h | h
          · rw [hst] at h
            cases h
          · rw [hgz] at h
            cases h
          · rw [henc] at h
            cases h
          · rw [hup] at h
            cases h

/-- C3 counterexample: with compression and encryption disabled, a
successful upload of a 5-byte file reported as 7 transferred bytes
followed by a deletion failure leaves FileSendSuccess at 0 — the
success counter was never incremented, because sendFileS3 returns the
deletion error and the worker then increments FileSendErrors — and the
deletion failure lands in FileSendErrors, the very counter a transfer
failure increments, so it is not a distinct error class. -/
theorem claim_C3_counterexample :
    (workerProcessFile { Gzip := false, Encrypt := false }
        { statRes := some 5, uploadRes := some 7,
          removeOrigOk1 := false, removeOrigOk2 := false } {}).2.1.fileSendSuccess
      = 0 ∧
    (workerProcessFile { Gzip := false, Encrypt := false }
        { statRes := some 5, uploadRes := some 7,
          removeOrigOk1 := false, removeOrigOk2 := false } {}).2.1.fileSendErrors
      = 1 ∧
    (workerProcessFile { Gzip := false, Encrypt := false }
        { statRes := some 5, uploadRes := none } {}).2.1.fileSendErrors
      = 1 := by
  decide

/-- C3 (amended): a deletion failure after a successful upload does not
roll the delivery metrics back — the original and transferred byte
sums were already incremented inside sendFileS3 and stay incremented —
but the per-file success counter FileSendSuccess is not incremented in
that case: sendFileS3 returns the deletion error, and the worker
counts it in FileSendErrors, the same counter used for transfer
failures. -/
theorem claim_C3_amended (config : AppConfig) (env : FileEnv)
    (m : AppMetrics) (n b : Int) (hst : env.statRes = some n)
    (hgz : (GzipFile config env).1 = true)
    (henc : (EncryptFile config env).1 = true)
    (hup : uploadOutcome config env = some b)
    (hdel : (DeleteFile config env).1 = false) :
    (workerProcessFile config env m).1 = false ∧
    (workerProcessFile config env m).2.1.fileOrigBytesSum =
      m.fileOrigBytesSum + n ∧
    (workerProcessFile config env m).2.1.fileSendBytesSum =
      m.fileSendBytesSum + b ∧
    (workerProcessFile config env m).2.1.fileSendCount =
      m.fileSendCount + 1 ∧
    (workerProcessFile config env m).2.1.fileSendErrors =
      m.fileSendErrors + 1 ∧
    (workerProcessFile config env m).2.1.fileSendSuccess =
      m.fileSendSuccess := by
  have hfst := sendFileS3_upload_ok_fst
    (m := { m with fileSendCount := m.fileSendCount + 1 })
    hst hgz henc hup
  have hmet := sendFileS3_upload_ok_metrics
    (m := { m with fileSendCount := m.fileSendCount + 1 })
    hst hgz henc hup
  simp only [workerProcessFile, hfst, hdel, hmet]
  simp

/-- Witness for claim_C3_amended at a concrete run. -/
theorem claim_C3_amended_witness :
    (workerProcessFile { Gzip := false, Encrypt := false }
        { statRes := some 5, uploadRes := some 7, removeOrigOk1 := false,
          removeOrigOk2 := false } {}).1 = false ∧
    (workerProcessFile { Gzip := false, Encrypt := false }
        { statRes := some 5, uploadRes := some 7, removeOrigOk1 := false,
          removeOrigOk2 := false } {}).2.1.fileOrigBytesSum = 5 := by
  have h := claim_C3_amended { Gzip := false, Encrypt := false }
    { statRes := some 5, uploadRes := some 7, removeOrigOk1 := false,
      removeOrigOk2 := false } {} 5 7 rfl rfl rfl rfl (by decide)
  exact ⟨h.1, h.2.1⟩

/-- C7: a per-file failure before deletion — stat of a vanished file,
a compress or encrypt failure, or an upload failure — makes the worker
count the error in FileSendErrors, leaves the file in place (no remove
call appears in the trace), leaves the success counter untouched, and
the worker's loop continues: after processing, the worker is back in
its receive loop, nothing was cancelled and the process did not stop. -/
theorem claim_C7_per_file_failure_not_fatal (config : AppConfig)
    (env : FileEnv) (m : AppMetrics) (envf : String → FileEnv)
    (s : SysState) (i : Nat) (f : String)
    (hfail : env.statRes = none ∨ (GzipFile config env).1 = false ∨
      (EncryptFile config env).1 = false ∨ uploadOutcome config env = none)
    (hph : (getWorker s i).phase = WPhase.locked f)
    (hi : i < s.workers.length) :
    (workerProcessFile config env m).1 = false ∧
    (workerProcessFile config env m).2.1.fileSendErrors =
      m.fileSendErrors + 1 ∧
    (workerProcessFile config env m).2.1.fileSendSuccess =
      m.fileSendSuccess ∧
    Action.removeOrig ∉ (workerProcessFile config env m).2.2 ∧
    Action.removeGzip ∉ (workerProcessFile config env m).2.2 ∧
    Action.removeEnc ∉ (workerProcessFile config env m).2.2 ∧
    (getWorker (sysStep config envf s (Dir.workerProc i)) i).phase =
      WPhase.looping ∧
    (sysStep config envf s (Dir.workerProc i)).cancelled = s.cancelled ∧
    (sysStep config envf s (Dir.workerProc i)).mainDone = s.mainDone := by
  have hsf := sendFileS3_fail
    (m := { m with fileSendCount := m.fileSendCount + 1 }) hfail
  have hw : workerProcessFile config env m =
      (false,
        { (sendFileS3 config env
            { m with fileSendCount := m.fileSendCount + 1 }).2.1 with
          fileSendErrors :=
            (sendFileS3 config env
              { m with fileSendCount := m.fileSendCount + 1 }).2.1.fileSendErrors
              + 1 },
        (sendFileS3 config env
          { m with fileSendCount := m.fileSendCount + 1 }).2.2) := by
    simp only [workerProcessFile, hsf.1]
    simp
  have hstep : sysStep config envf s (Dir.workerProc i) =
      { setWorker s i { getWorker s i with phase := WPhase.looping } with
        metrics := (workerProcessFile config (envf f) s.metrics).2.1,
        log := s.log ++ (workerProcessFile config (envf f) s.metrics).2.2.map
          (fun a => (i, a)),
        locks := fsUnLock s.locks f } := by
    simp only [sysStep]
    rw [hph]
  refine ⟨by rw [hw], ?_, ?_, ?_, ?_, ?_, ?_, ?_, ?_⟩
  · rw [hw, hsf.2.2.2.2]
  · rw [hw, hsf.2.2.2.2]
  · rw [hw]
    exact hsf.2.1
  · rw [hw]
    exact hsf.2.2.1
  · rw [hw]
    exact hsf.2.2.2.1
  · rw [hstep]
    have hgw : getWorker
        ({ setWorker s i { getWorker s i with phase := WPhase.looping } with
          metrics := (workerProcessFile config (envf f) s.metrics).2.1,
          log := s.log ++
            (workerProcessFile config (envf f) s.metrics).2.2.map
              (fun a => (i, a)),
          locks := fsUnLock s.locks f }) i =
        { getWorker s i with phase := WPhase.looping } := by
      have := getWorker_setWorker s i
        { getWorker s i with phase := WPhase.looping } hi
      simpa [getWorker, setWorker] using this
    rw [hgw]
  · rw [hstep]
    simp [setWorker]
  · rw [hstep]
    simp [setWorker]

/-- Witness for claim_C7_per_file_failure_not_fatal: a vanished file
counts one error and performs no removal. -/
theorem claim_C7_witness :
    (workerProcessFile {} { statRes := none } {}).1 = false ∧
    (workerProcessFile {} { statRes := none } {}).2.1.fileSendErrors = 1 ∧
    (getWorker
      (sysStep {} (fun _ => { statRes := none })
        { workers := [{ running := true, phase := WPhase.locked "f" }] }
        (Dir.workerProc 0)) 0).phase = WPhase.looping := by
  have h := claim_C7_per_file_failure_not_fatal {} { statRes := none } {}
    (fun _ => { statRes := none })
    { workers := [{ running := true, phase := WPhase.locked "f" }] }
    0 "f" (Or.inl rfl) (by decide) (by decide)
  exact ⟨h.1, h.2.1, h.2.2.2.2.2.2.1⟩

/-- isExited characterizes the exited phase. -/
theorem isExited_true_iff (p : WPhase) :
    p.isExited = true ↔ p = WPhase.exited := by
  cases p <;> simp [WPhase.isExited]

/-- When every worker has exited, so has each indexed worker (the
out-of-range default is exited as well). -/
theorem allExited_getWorker (s : SysState)
    (h : s.workers.all (fun w => w.phase.isExited) = true) (i : Nat) :
    (getWorker s i).phase = WPhase.exited := by
  unfold getWorker
  by_cases hi : i < s.workers.length
  · rw [List.getD_eq_getElem _ _ hi]
    exact (isExited_true_iff _).mp
      (List.all_eq_true.mp h _ (List.getElem_mem hi))
  · rw [List.getD_eq_default _ _ (Nat.le_of_not_lt hi)]

/-- Once every worker has exited, no scheduler step changes the worker
records: exited workers match no active branch. -/
theorem sysStep_workers_of_allExited (config : AppConfig)
    (envf : String → FileEnv) (s : SysState) (d : Dir)
    (h : s.workers.all (fun w => w.phase.isExited) = true) :
    (sysStep config envf s d).workers = s.workers := by
  cases d with
  | workerCtx i =>
    have hph := allExited_getWorker s h i
    simp only [sysStep]
    rw [hph]
  | workerRecv i =>
    have hph := allExited_getWorker s h i
    simp only [sysStep]
    rw [hph]
  | workerProc i =>
    have hph := allExited_getWorker s h i
    simp only [sysStep]
    rw [hph]
  | uploadStep =>
    simp only [sysStep]
    split <;> rfl
  | scanTick entries =>
    simp only [sysStep]
    split <;> rfl
  | sigOS => rfl
  | sigCtx =>
    simp only [sysStep]
    split <;> rfl
  | mainStep =>
    simp only [sysStep]
    split <;> rfl

/-- A scheduler step either leaves mainDone as it was, or is the main
thread returning, which requires every worker to have exited. -/
theorem sysStep_mainDone (config : AppConfig) (envf : String → FileEnv)
    (s : SysState) (d : Dir) :
    (sysStep config envf s d).mainDone = s.mainDone ∨
    ((sysStep config envf s d).workers = s.workers ∧
      s.workers.all (fun w => w.phase.isExited) = true) := by
  cases d with
  | workerCtx i =>
    left
    simp only [sysStep]
    split
    · split <;> simp [setWorker]
    · rfl
  | workerRecv i =>
    left
    simp only [sysStep]
    split
    · split
      · unfold workerRecvMsg
        split <;> simp [setWorker]
      · split
        · unfold workerRecvMsg
          split <;> simp [setWorker]
        · rfl
    · rfl
  | workerProc i =>
    left
    simp only [sysStep]
    split
    · simp [setWorker]
    · rfl
  | uploadStep =>
    left
    simp only [sysStep]
    split <;> rfl
  | scanTick entries =>
    left
    simp only [sysStep]
    split <;> rfl
  | sigOS => left; rfl
  | sigCtx =>
    left
    simp only [sysStep]
    split <;> rfl
  | mainStep =>
    by_cases h : (s.exitSig && s.workers.all (fun w => w.phase.isExited))
      = true
    · right
      refine ⟨?_, ((Bool.and_eq_true _ _).mp h).2⟩
      simp [sysStep, h]
    · left
      simp [sysStep, h]

/-- The invariant that a returned main implies all workers exited is
preserved by every scheduler step. -/
theorem sysStep_inv (config : AppConfig) (envf : String → FileEnv)
    (s : SysState) (d : Dir)
    (h : s.mainDone = true → s.workers.all (fun w => w.phase.isExited) = true) :
    (sysStep config envf s d).mainDone = true →
      (sysStep config envf s d).workers.all (fun w => w.phase.isExited)
        = true := by
  intro hm
  rcases sysStep_mainDone config envf s d with hcase | hcase
  · have hall := h (hcase ▸ hm)
    rw [sysStep_workers_of_allExited config envf s d hall]
    exact hall
  · rw [hcase.1]
    exact hcase.2

/-- The invariant holds along every schedule. -/
theorem sysRun_inv (config : AppConfig) (envf : String → FileEnv) :
    ∀ (ds : List Dir) (s : SysState),
      (s.mainDone = true →
        s.workers.all (fun w => w.phase.isExited) = true) →
      ((sysRun config envf s ds).mainDone = true →
        (sysRun config envf s ds).workers.all (fun w => w.phase.isExited)
          = true) := by
  intro ds
  induction ds with
  | nil => intro s h; exact h
  | cons d rest ih =>
    intro s h
    exact ih (sysStep config envf s d) (sysStep_inv config envf s d h)

/-- C4 counterexample: on the sentinel exit path the worker returns
without setting its status to running=false, and main does not await
the queue close. Schedule A: scan finds the sentinel, worker 0 receives
it (cancelling and exiting with Running still true), the signal
goroutine forwards the exit, the upload goroutine closes the queue, and
main returns: the process stops with worker 0's status still
running=true. Schedule B omits the upload goroutine's step: main
returns while the queue was never closed. Both refute the claim. -/
theorem claim_C4_counterexample :
    (sysRun { PathToWatch := "d", ExitOnFilename := "d/stop",
              WorkersCannelSize := 4 } (fun _ => {}) (sysInit 1)
      [Dir.scanTick ["stop"], Dir.workerRecv 0, Dir.sigCtx,
       Dir.uploadStep, Dir.mainStep]).mainDone = true ∧
    (getWorker (sysRun { PathToWatch := "d",
                         ExitOnFilename := "d/stop",
                         WorkersCannelSize := 4 } (fun _ => {}) (sysInit 1)
      [Dir.scanTick ["stop"], Dir.workerRecv 0, Dir.sigCtx,
       Dir.uploadStep, Dir.mainStep]) 0).running = true ∧
    (sysRun { PathToWatch := "d", ExitOnFilename := "d/stop",
              WorkersCannelSize := 4 } (fun _ => {}) (sysInit 1)
      [Dir.scanTick ["stop"], Dir.workerRecv 0, Dir.sigCtx,
       Dir.mainStep]).mainDone = true ∧
    (sysRun { PathToWatch := "d", ExitOnFilename := "d/stop",
              WorkersCannelSize := 4 } (fun _ => {}) (sysInit 1)
      [Dir.scanTick ["stop"], Dir.workerRecv 0, Dir.sigCtx,
       Dir.mainStep]).queueClosed = false := by
  refine ⟨?_, ?_, ?_, ?_⟩ <;> decide

/-- C4 (amended): main returns only after every worker has exited (the
wait group), along every schedule from the initial state; a worker
taking the cancellation branch sets running=false before exiting, and
so does the client-setup failure branch at startup, but a worker
exiting on the sentinel filename leaves its running flag as it was;
the queue close is performed by the upload goroutine and is not
awaited by main. -/
theorem claim_C4_amended :
    (∀ (config : AppConfig) (envf : String → FileEnv) (n : Nat)
      (ds : List Dir),
      (sysRun config envf (sysInit n) ds).mainDone = true →
      (sysRun config envf (sysInit n) ds).workers.all
        (fun w => w.phase.isExited) = true) ∧
    (∀ (config : AppConfig) (envf : String → FileEnv) (s : SysState)
      (i : Nat),
      s.cancelled = true → (getWorker s i).phase = WPhase.looping →
      i < s.workers.length →
      (getWorker (sysStep config envf s (Dir.workerCtx i)) i).running
        = false ∧
      (getWorker (sysStep config envf s (Dir.workerCtx i)) i).phase
        = WPhase.exited) ∧
    (∀ (config : AppConfig) (envf : String → FileEnv) (s : SysState)
      (i : Nat) (f : String) (rest : List String),
      (getWorker s i).phase = WPhase.looping → s.queue = f :: rest →
      (config.ExitOnFilename != "" && f == config.ExitOnFilename) = true →
      i < s.workers.length →
      (getWorker (sysStep config envf s (Dir.workerRecv i)) i).running
        = (getWorker s i).running ∧
      (getWorker (sysStep config envf s (Dir.workerRecv i)) i).phase
        = WPhase.exited) ∧
    (workerStart false = { running := false, phase := WPhase.exited } ∧
     workerStart true = { running := true, phase := WPhase.looping }) := by
  refine ⟨?_, ?_, ?_, by decide⟩
  · intro config envf n ds
    apply sysRun_inv
    intro h
    simp [sysInit] at h
  · intro config envf s i hc hph hi
    have hstep : sysStep config envf s (Dir.workerCtx i) =
        setWorker s i
          { getWorker s i with running := false, phase := WPhase.exited } := by
      simp only [sysStep]
      rw [hph]
      simp [hc]
    rw [hstep, getWorker_setWorker s i _ hi]
    exact ⟨rfl, rfl⟩
  · intro config envf s i f rest hph hq hsent hi
    have hstep : sysStep config envf s (Dir.workerRecv i) =
        { setWorker s i { getWorker s i with phase := WPhase.exited } with
          queue := rest, cancelled := true } := by
      simp only [sysStep]
      rw [hph, hq]
      simp [workerRecvMsg, hsent]
    have hgw : getWorker
        ({ setWorker s i { getWorker s i with phase := WPhase.exited } with
          queue := rest, cancelled := true }) i =
        { getWorker s i with phase := WPhase.exited } := by
      have := getWorker_setWorker s i
        { getWorker s i with phase := WPhase.exited } hi
      simpa [getWorker, setWorker] using this
    rw [hstep, hgw]
    exact ⟨rfl, rfl⟩

/-- C6 counterexample: two workers both proceed past lock acquisition
for the same path. Two scan ticks each discover "a", workers 0 and 1
both receive the path "d/a" — worker 1's fs.Lock finds the entry
already held, but the worker discards the result — and both run the
full transform/transfer/cleanup, as the action log and the doubled
FileSendCount show, refuting that exactly one proceeds and the other
skips without side effects. -/
theorem claim_C6_counterexample :
    (sysRun { WorkersCannelSize := 4, PathToWatch := "d", Gzip := false,
              Encrypt := false } (fun _ => {}) (sysInit 2)
      [Dir.scanTick ["a"], Dir.scanTick ["a"], Dir.workerRecv 0,
       Dir.workerRecv 1, Dir.workerProc 0, Dir.workerProc 1]).log =
      [(0, Action.statOrig), (0, Action.upload), (0, Action.removeOrig),
       (1, Action.statOrig), (1, Action.upload), (1, Action.removeOrig)] ∧
    (sysRun { WorkersCannelSize := 4, PathToWatch := "d", Gzip := false,
              Encrypt := false } (fun _ => {}) (sysInit 2)
      [Dir.scanTick ["a"], Dir.scanTick ["a"], Dir.workerRecv 0,
       Dir.workerRecv 1, Dir.workerProc 0,
       Dir.workerProc 1]).metrics.fileSendCount = 2 := by
  refine ⟨?_, ?_⟩ <;> decide

/-- C6 (amended): the worker never skips on lock contention: on
receiving a non-sentinel path it always proceeds to processing,
whatever the lock registry holds — the result of fs.Lock is discarded
by the worker — and when the path is already registered the registry
is left unchanged while the worker still moves to the processing
phase. -/
theorem claim_C6_amended (config : AppConfig) (envf : String → FileEnv)
    (s : SysState) (i : Nat) (f : String) (rest : List String)
    (hph : (getWorker s i).phase = WPhase.looping)
    (hq : s.queue = f :: rest)
    (hsent : (config.ExitOnFilename != "" && f == config.ExitOnFilename)
      = false)
    (hi : i < s.workers.length) :
    (getWorker (sysStep config envf s (Dir.workerRecv i)) i).phase =
      WPhase.locked f ∧
    (sysStep config envf s (Dir.workerRecv i)).locks =
      (fsLock s.locks f i).1 ∧
    (s.locks.any (fun p => p.1 == f) = true →
      (sysStep config envf s (Dir.workerRecv i)).locks = s.locks) := by
  have hstep : sysStep config envf s (Dir.workerRecv i) =
      { setWorker s i { getWorker s i with phase := WPhase.locked f } with
        queue := rest, locks := (fsLock s.locks f i).1 } := by
    simp only [sysStep]
    rw [hph, hq]
    simp [workerRecvMsg, hsent]
  have hgw : getWorker
      ({ setWorker s i { getWorker s i with phase := WPhase.locked f } with
        queue := rest, locks := (fsLock s.locks f i).1 }) i =
      { getWorker s i with phase := WPhase.locked f } := by
    have := getWorker_setWorker s i
      { getWorker s i with phase := WPhase.locked f } hi
    simpa [getWorker, setWorker] using this
  refine ⟨by rw [hstep, hgw], by rw [hstep], fun hheld => ?_⟩
  rw [hstep]
  simp [setWorker, fsLock, hheld]

/-- Witness for claim_C6_amended: the path is already locked by another
worker, yet the receiving worker proceeds to the processing phase and
the registry is unchanged. -/
theorem claim_C6_amended_witness :
    (getWorker (sysStep {} (fun _ => {})
      { queue := ["p"], locks := [("p", 9)],
        workers := [{ running := true, phase := WPhase.looping }] }
      (Dir.workerRecv 0)) 0).phase = WPhase.locked "p" ∧
    (sysStep {} (fun _ => {})
      { queue := ["p"], locks := [("p", 9)],
        workers := [{ running := true, phase := WPhase.looping }] }
      (Dir.workerRecv 0)).locks = [("p", 9)] := by
  have h := claim_C6_amended {} (fun _ => {})
    { queue := ["p"], locks := [("p", 9)],
      workers := [{ running := true, phase := WPhase.looping }] }
    0 "p" [] (by decide) rfl (by decide) (by decide)
  exact ⟨h.1, h.2.2 (by decide)⟩

end S3Uploader
